import Mathlib

/-!
# Verification of the prompt-security detection-and-redaction engine

A shallow embedding, in Lean 4, of the core of the `prompt-security`
repository: the regular-expression based redaction engine
(`internal/filter/filter.go`), the pattern source and compiled-pattern
cache (`internal/patterns/patterns.go`), and the configuration
manager (`internal/config/config.go`, `internal/config/manager.go`).

Texts are modelled as `String` / `List Char`.  The five built-in
detection patterns are translated, construct by construct, into a small
regular-expression abstract syntax (`Rx`) whose matcher implements the
leftmost-first (backtracking-preference) semantics of Go's `regexp`
package, including greedy quantifiers, ASCII word boundaries, and the
scan loop of `FindAllString` / `ReplaceAllString` (non-overlapping
matches, one-rune advance on failure, empty matches abutting a previous
match skipped).  Replacement strings are inserted literally; none of the
replacement texts considered here contain the `$` template references
that Go would expand.

External collaborators (the SQLite persistence layer, the JSON config
file, Go's `regexp.Compile`) are modelled as abstract parameters: a
durable write is a boolean outcome, the config file system is a record
of outcomes, and pattern compilation is an abstract
`String → Option Rx` function, exactly as the specification treats
them (interfaces only).
-/

namespace PromptSecurity

/-! ## Character classes

Each character class appearing in the five default pattern strings of
`internal/patterns/patterns.go` is represented by one constructor, so
that compiled patterns (`Rx`) have decidable equality.  `CCls.eval`
gives the Go/RE2 meaning of each class (ASCII semantics; `\d` is
`[0-9]`, `\s` is `[\t\n\f\r ]`, `\w` for word boundaries is
`[0-9A-Za-z_]`). -/

/-- A character class occurring in one of the built-in patterns. -/
inductive CCls where
  /-- a single literal character -/
  | single (c : Char)
  /-- `\d` = `[0-9]` -/
  | digit
  /-- `[a-zA-Z]` -/
  | alpha
  /-- `[a-zA-Z0-9._%+-]` (local part of an email) -/
  | emailLocal
  /-- `[a-zA-Z0-9.-]` (domain part of an email) -/
  | emailDomain
  /-- `[\s-]` (separator after an international phone prefix) -/
  | phoneIntlSep
  /-- `[\s.-]` (separator inside a phone number) -/
  | phoneSep
  /-- `[- ]` (separator inside a credit-card number) -/
  | cardSep
  /-- `[01]` (first digit of a one/two-digit IPv4 octet) -/
  | oct01
  /-- `[0-4]` (second digit of a `2xx` octet below 250) -/
  | oct04
  /-- `[0-5]` (third digit of a `25x` octet) -/
  | oct05
  deriving DecidableEq, Repr

/-- Go's `\s`: `[\t\n\f\r ]`. -/
def isSpaceGo (c : Char) : Bool :=
  c == ' ' || c == '\t' || c == '\n' || c == '\x0c' || c == '\r'

/-- Membership in a character class. -/
def CCls.eval : CCls → Char → Bool
  | .single a, c => c == a
  | .digit, c => c.isDigit
  | .alpha, c => c.isAlpha
  | .emailLocal, c =>
      c.isAlphanum || c == '.' || c == '_' || c == '%' || c == '+' || c == '-'
  | .emailDomain, c => c.isAlphanum || c == '.' || c == '-'
  | .phoneIntlSep, c => isSpaceGo c || c == '-'
  | .phoneSep, c => isSpaceGo c || c == '.' || c == '-'
  | .cardSep, c => c == '-' || c == ' '
  | .oct01, c => c == '0' || c == '1'
  | .oct04, c => '0' ≤ c && c ≤ '4'
  | .oct05, c => '0' ≤ c && c ≤ '5'

/-! ## Regular-expression syntax -/

/-- Abstract syntax of the regular expressions needed by the five
built-in patterns: character classes, concatenation, alternation
(tried left to right), the greedy Kleene star of a character class,
and the ASCII word boundary `\b`.  Greedy `+`, `?`, `{m,n}` are
expressed with `seq`, `alt`, `eps` and `star`. -/
inductive Rx where
  /-- the empty regular expression -/
  | eps
  /-- one character of class `k` -/
  | cls (k : CCls)
  /-- concatenation -/
  | seq (a b : Rx)
  /-- alternation; `a` is preferred over `b` (leftmost-first) -/
  | alt (a b : Rx)
  /-- greedy Kleene star of a character class -/
  | star (k : CCls)
  /-- ASCII word boundary `\b` -/
  | wordB
  deriving DecidableEq, Repr

/-- Greedy `r?` — matching `r` is preferred over matching nothing. -/
def Rx.opt (a : Rx) : Rx := .alt a .eps

/-- A single literal character. -/
def chr (c : Char) : Rx := .cls (.single c)

/-- Concatenation of a list of regular expressions. -/
def seqList (l : List Rx) : Rx := l.foldr .seq .eps

/-- `r{n}` — exactly `n` copies of `r`. -/
def repn (n : Nat) (r : Rx) : Rx := seqList (List.replicate n r)

/-- Greedy `k+` for a character class, as `k` followed by `k*`. -/
def plusC (k : CCls) : Rx := .seq (.cls k) (.star k)

/-! ## The matcher

`mtch r prev s k` attempts to match `r` at the start of `s` in
backtracking-preference order, where `prev` is the character
immediately before the current position (`none` at the start of the
text; needed for `\b`).  On each candidate way of matching `r`, the
continuation `k` receives the new previous character and the remaining
input; the first candidate for which `k` succeeds is returned.  This is
the documented leftmost-first semantics of Go's `regexp`: the match is
the one a backtracking search would find first. -/

/-- `true` if an (optional) character is a word character, for `\b`. -/
def isWordOpt : Option Char → Bool
  | none => false
  | some c => c.isAlphanum || c == '_'

/-- `true` if the head of the remaining input is a word character. -/
def isWordHead : List Char → Bool
  | [] => false
  | c :: _ => c.isAlphanum || c == '_'

/-- Greedy matching of `k*`: consume as many characters of class `k` as
possible, backtracking one character at a time when the continuation
fails. -/
def starTry (k : CCls) (p : Option Char) (s : List Char)
    (f : Option Char → List Char → Option (List Char)) : Option (List Char) :=
  match s with
  | [] => f p []
  | c :: rest =>
    if k.eval c then
      match starTry k (some c) rest f with
      | some r => some r
      | none => f p (c :: rest)
    else f p (c :: rest)

/-- The backtracking matcher (see the section comment). -/
def mtch : Rx → Option Char → List Char → (Option Char → List Char → Option (List Char)) →
    Option (List Char)
  | .eps, p, s, f => f p s
  | .cls _, _, [], _ => none
  | .cls k, _, c :: s, f => if k.eval c then f (some c) s else none
  | .seq a b, p, s, f => mtch a p s (fun p2 s2 => mtch b p2 s2 f)
  | .alt a b, p, s, f =>
    match mtch a p s f with
    | some r => some r
    | none => mtch b p s f
  | .star k, p, s, f => starTry k p s f
  | .wordB, p, s, f => if isWordOpt p != isWordHead s then f p s else none

/-- The leftmost-first match of `r` at exactly the current position:
`some rest` means `r` matched a prefix and `rest` is the remaining
input after the match chosen by backtracking preference. -/
def matchHere (r : Rx) (p : Option Char) (s : List Char) : Option (List Char) :=
  mtch r p s (fun _ rest => some rest)

/-! ## The scan loop of `FindAllString` / `ReplaceAllString`

Both Go functions iterate the same search: starting at position 0, find
the leftmost match at or after the current position; record it;
continue immediately after a non-empty match; after an empty match
advance one rune; an empty match starting exactly where the previous
match ended is skipped (Go `regexp/regexp.go`, `allMatches` and
`replaceAll`).  `scanGo` produces the list of accepted matches, each
paired with the literal text preceding it, plus the literal tail after
the last match — enough to reconstruct the input, the match list, and
the replaced text.

The `fuel` argument only bounds the recursion; every step consumes at
least one character, so `length + 1` fuel is never exhausted. -/

/-- Prepend a literal character to a scan result: it lands before the
first recorded match (or in the tail when there is none). -/
def consPre (c : Char) :
    List (List Char × List Char) × List Char → List (List Char × List Char) × List Char
  | ([], tail) => ([], c :: tail)
  | ((pre, m) :: segs, tail) => ((c :: pre, m) :: segs, tail)

/-- The scan loop.  `p` is the character before the current position,
`justEnd` records whether the previous accepted match ended exactly
here (Go's `prevMatchEnd == pos`), used to skip abutting empty
matches. -/
def scanGo (r : Rx) : Nat → Option Char → Bool → List Char →
    List (List Char × List Char) × List Char
  | 0, _, _, s => ([], s)
  | fuel + 1, p, justEnd, s =>
    match matchHere r p s with
    | none =>
      match s with
      | [] => ([], [])
      | c :: s2 => consPre c (scanGo r fuel (some c) false s2)
    | some rest =>
      let n := s.length - rest.length
      if n = 0 then
        -- an empty match: record it unless it abuts the previous match,
        -- then advance one character
        match s with
        | [] => if justEnd then ([], []) else ([([], [])], [])
        | c :: s2 =>
          let res := consPre c (scanGo r fuel (some c) false s2)
          if justEnd then res else (([], []) :: res.1, res.2)
      else
        let m := s.take n
        let p2 := match m.getLast? with
          | some c => some c
          | none => p
        let res := scanGo r fuel p2 true (s.drop n)
        (([], m) :: res.1, res.2)

/-- Run the scan over a whole text (initial fuel `length + 1`). -/
def scanText (r : Rx) (s : List Char) : List (List Char × List Char) × List Char :=
  scanGo r (s.length + 1) none false s

/-- `FindAllString(text, -1)`: the successive non-overlapping
leftmost-first matches of `r` in `s`. -/
def findAll (r : Rx) (s : List Char) : List (List Char) :=
  (scanText r s).1.map (fun seg => seg.2)

/-- `ReplaceAllString(src, repl)`: every match found by the same scan is
replaced by `repl` (inserted literally — no replacement text used in
this development contains Go's `$` template references). -/
def replaceAll (r : Rx) (s repl : List Char) : List Char :=
  (scanText r s).1.foldr (fun seg acc => seg.1 ++ repl ++ acc) (scanText r s).2

/-! ## Plain string search and replacement (`strings` package) -/

/-- `strings.HasPrefix s pat` on character lists. -/
def startsWithStr : List Char → List Char → Bool
  | _, [] => true
  | [], _ :: _ => false
  | c :: s, d :: pat => c == d && startsWithStr s pat

/-- `strings.Contains s pat`: some suffix of `s` starts with `pat`
(in particular every string contains the empty string). -/
def containsStr : List Char → List Char → Bool
  | [], pat => startsWithStr [] pat
  | c :: s2, pat => startsWithStr (c :: s2) pat || containsStr s2 pat

/-- `strings.ReplaceAll` for a non-empty search string `o :: old2`:
replace each leftmost non-overlapping occurrence.  The `fuel` argument
only bounds the recursion (each step consumes at least one character,
so `length` fuel is never exhausted). -/
def replaceNEGo (o : Char) (old2 new : List Char) : Nat → List Char → List Char
  | 0, s => s
  | _ + 1, [] => []
  | fuel + 1, c :: s2 =>
    if startsWithStr (c :: s2) (o :: old2) then
      new ++ replaceNEGo o old2 new fuel (s2.drop old2.length)
    else
      c :: replaceNEGo o old2 new fuel s2

/-- `strings.ReplaceAll` for a non-empty search string (initial
fuel `length`). -/
def replaceNE (o : Char) (old2 new s : List Char) : List Char :=
  replaceNEGo o old2 new s.length s

/-- `strings.ReplaceAll s old new`.  With an empty `old`, Go inserts
`new` before every character and at the end. -/
def replaceAllString (s old new : List Char) : List Char :=
  match old with
  | [] => new ++ s.foldr (fun c acc => c :: (new ++ acc)) []
  | o :: old2 => replaceNE o old2 new s

/-! ## The five built-in patterns (`internal/patterns/patterns.go`)

Each definition translates one pattern string, construct by construct.
The constant pattern strings are:

    EmailPatternStr      = [a-zA-Z0-9._%+-]+@[a-zA-Z0-9.-]+\.[a-zA-Z]{2,}
    PhonePatternStr      = (\+\d{1,3}[\s-]?)?\(?\d{3}\)?[\s.-]?\d{3}[\s.-]?\d{4}
    CreditCardPatternStr = \b(?:\d{4}[- ]?){3}\d{4}\b
    SSNPatternStr        = \b\d{3}-\d{2}-\d{4}\b
    IPV4PatternStr       = \b((25[0-5]|2[0-4][0-9]|[01]?[0-9][0-9]?)\.){3}(25[0-5]|2[0-4][0-9]|[01]?[0-9][0-9]?)\b
-/

/-- `[a-zA-Z0-9._%+-]+@[a-zA-Z0-9.-]+\.[a-zA-Z]{2,}` (compiled). -/
def EmailPattern : Rx :=
  seqList [plusC .emailLocal, chr '@', plusC .emailDomain, chr '.',
    .cls .alpha, .cls .alpha, .star .alpha]

/-- `(\+\d{1,3}[\s-]?)?\(?\d{3}\)?[\s.-]?\d{3}[\s.-]?\d{4}` (compiled);
`\d{1,3}` is one digit followed by up to two optional digits, tried
greedily. -/
def PhonePattern : Rx :=
  seqList [
    Rx.opt (seqList [chr '+', .cls .digit,
      Rx.opt (.seq (.cls .digit) (Rx.opt (.cls .digit))),
      Rx.opt (.cls .phoneIntlSep)]),
    Rx.opt (chr '('), repn 3 (.cls .digit), Rx.opt (chr ')'),
    Rx.opt (.cls .phoneSep), repn 3 (.cls .digit),
    Rx.opt (.cls .phoneSep), repn 4 (.cls .digit)]

/-- `\b(?:\d{4}[- ]?){3}\d{4}\b` (compiled). -/
def CreditCardPattern : Rx :=
  seqList [.wordB,
    repn 3 (.seq (repn 4 (.cls .digit)) (Rx.opt (.cls .cardSep))),
    repn 4 (.cls .digit), .wordB]

/-- `\b\d{3}-\d{2}-\d{4}\b` (compiled). -/
def SSNPattern : Rx :=
  seqList [.wordB, repn 3 (.cls .digit), chr '-', repn 2 (.cls .digit),
    chr '-', repn 4 (.cls .digit), .wordB]

/-- One IPv4 octet: `25[0-5]|2[0-4][0-9]|[01]?[0-9][0-9]?`,
alternatives tried left to right. -/
def ipv4Octet : Rx :=
  Rx.alt (seqList [chr '2', chr '5', .cls .oct05])
    (Rx.alt (seqList [chr '2', .cls .oct04, .cls .digit])
      (seqList [Rx.opt (.cls .oct01), .cls .digit, Rx.opt (.cls .digit)]))

/-- `\b((25[0-5]|2[0-4][0-9]|[01]?[0-9][0-9]?)\.){3}(25[0-5]|...)\b`
(compiled). -/
def IPV4Pattern : Rx :=
  seqList [.wordB, repn 3 (.seq ipv4Octet (chr '.')), ipv4Octet, .wordB]

/-- The precompiled built-in default email matcher
(`defaultEmailPattern` in `patterns.go`; same pattern string as
`EmailPattern`). -/
def defaultEmailPattern : Rx := EmailPattern

/-! ## Configuration (`internal/config/config.go`)

`Config` carries the union of the fields declared across the
generations of `config.go` present in the source tree: the four
original detection toggles and replacements, the IPv4 toggle and
replacement, the custom override pattern strings (used by
`patterns.go`), the exact-match rules, and the monitoring settings.
Fields a given function does not mention are simply unused by its
embedding, exactly as in Go. -/

/-- `config.StringMatchPattern`: a user-defined exact-match rule. -/
structure StringMatchPattern where
  Name : String
  Pattern : String
  Enabled : Bool
  Replacement : String
  deriving DecidableEq, Repr

/-- `config.Config`. -/
structure Config where
  DetectEmails : Bool := false
  DetectPhones : Bool := false
  DetectCreditCards : Bool := false
  DetectSSNs : Bool := false
  DetectIPV4 : Bool := false
  StringMatchPatterns : List StringMatchPattern := []
  CustomEmailPattern : String := ""
  CustomPhonePattern : String := ""
  CustomCreditCardPattern : String := ""
  CustomSSNPattern : String := ""
  CustomIPV4Pattern : String := ""
  EmailReplacement : String := ""
  PhoneReplacement : String := ""
  CreditCardReplacement : String := ""
  SSNReplacement : String := ""
  IPV4Replacement : String := ""
  APIKeyReplacement : String := ""
  MonitoringInterval : Int := 0
  NotifyOnFilter : Bool := false
  deriving DecidableEq, Repr

/-- `config.DefaultConfig` (the generation of `config.go` cited by the
claims; struct fields it does not set keep their Go zero values). -/
def DefaultConfig : Config where
  DetectEmails := true
  DetectPhones := true
  DetectCreditCards := true
  DetectSSNs := true
  StringMatchPatterns := []
  EmailReplacement := "security@example.com"
  PhoneReplacement := "+1-555-123-4567"
  CreditCardReplacement := "XXXX-XXXX-XXXX-XXXX"
  SSNReplacement := "XXX-XX-XXXX"
  MonitoringInterval := 500
  NotifyOnFilter := true

/-! ## The redaction engine (`internal/filter/filter.go`) -/

/-- The sensitive-data type constants of `filter.go`. -/
def SensitiveTypeEmail : String := "email"

/-- `filter.SensitiveTypePhone`. -/
def SensitiveTypePhone : String := "phone"

/-- `filter.SensitiveTypeCreditCard`. -/
def SensitiveTypeCreditCard : String := "credit_card"

/-- `filter.SensitiveTypeSSN`. -/
def SensitiveTypeSSN : String := "ssn"

/-- `filter.ReplacementInfo`: one recorded replacement.  The Go field
`Type` is rendered `Typ` because `Type` is a Lean keyword. -/
structure ReplacementInfo where
  Typ : String
  Original : String
  Replacement : String
  deriving DecidableEq, Repr

/-- `filter.ReplacementSummary`. -/
structure ReplacementSummary where
  Replacements : List ReplacementInfo
  deriving DecidableEq, Repr

/-- The working state of `filter.SensitiveData`: the (mutable, in Go)
local `text` and the accumulated `summary.Replacements`. -/
structure FilterSt where
  text : List Char
  reps : List ReplacementInfo
  deriving DecidableEq, Repr

/-- The closure `findAndReplaceRegex` of `filter.SensitiveData`:
record one `ReplacementInfo` per match of `pattern` in the current
text, then replace all matches. -/
def findAndReplaceRegex (pattern : Rx) (replacement : String) (dataType : String)
    (st : FilterSt) : FilterSt where
  text := replaceAll pattern st.text replacement.data
  reps := st.reps ++ (findAll pattern st.text).map
    (fun m => ⟨dataType, String.mk m, replacement⟩)

/-- The closure `findAndReplaceString` of `filter.SensitiveData`:
if the exact text occurs, record one `ReplacementInfo` (a single record
regardless of the number of occurrences) and replace all occurrences. -/
def findAndReplaceString (pattern : String) (replacement : String) (dataType : String)
    (st : FilterSt) : FilterSt :=
  if containsStr st.text pattern.data then
    { text := replaceAllString st.text pattern.data replacement.data
      reps := st.reps ++ [⟨dataType, pattern, replacement⟩] }
  else st

/-- The exact-match pass of `filter.SensitiveData`: the loop over
`cfg.StringMatchPatterns`, skipping disabled rules. -/
def stringMatchPass (rules : List StringMatchPattern) (st : FilterSt) : FilterSt :=
  rules.foldl
    (fun st p =>
      if p.Enabled then findAndReplaceString p.Pattern p.Replacement p.Name st else st)
    st

/-- `filter.SensitiveData text cfg`: the sequential redaction passes —
emails, phone numbers, credit cards, SSNs (each enabled category scans
the output of the previous pass), then the enabled exact-match rules —
returning the filtered text, whether anything changed, and the summary.
This is the generation of `filter.go` present in the source tree: it
has no IPv4 pass and uses the package-level compiled default patterns
(`cfg.DetectIPV4`, `cfg.IPV4Replacement` and the custom override
patterns are not consulted). -/
def SensitiveData (text : String) (cfg : Config) :
    String × Bool × ReplacementSummary :=
  let st0 : FilterSt := ⟨text.data, []⟩
  let st1 := if cfg.DetectEmails then
    findAndReplaceRegex EmailPattern cfg.EmailReplacement SensitiveTypeEmail st0 else st0
  let st2 := if cfg.DetectPhones then
    findAndReplaceRegex PhonePattern cfg.PhoneReplacement SensitiveTypePhone st1 else st1
  let st3 := if cfg.DetectCreditCards then
    findAndReplaceRegex CreditCardPattern cfg.CreditCardReplacement SensitiveTypeCreditCard st2
    else st2
  let st4 := if cfg.DetectSSNs then
    findAndReplaceRegex SSNPattern cfg.SSNReplacement SensitiveTypeSSN st3 else st3
  let st5 := stringMatchPass cfg.StringMatchPatterns st4
  (String.mk st5.text, st5.text != text.data, ⟨st5.reps⟩)

/-! ## The pattern cache and pattern source (`internal/patterns/patterns.go`)

Go's `regexp.Compile` belongs to the standard library, not to this
repository; it is modelled as an abstract total function
`compile : String → Option Rx` (`none` = the pattern string does not
compile).  The cache's `map[string]*regexp.Regexp` is modelled as an
association list queried with `List.lookup`; `Get` inserts only keys
that are absent, so the representation is faithful. -/

/-- `patterns.PatternCache` (without the mutex, which only guards the
map): the compiled-pattern map. -/
structure PatternCache where
  patterns : List (String × Rx)
  deriving DecidableEq, Repr

/-- The error returned by `regexp.Compile` for an invalid pattern. -/
inductive InvalidPattern where
  | invalid
  deriving DecidableEq, Repr

/-- `PatternCache.Get key patternStr`: return the cached entry for
`key` if present; otherwise compile `patternStr`, returning its error
on failure, and cache the result under `key`.  (As in the source, the
map key is `key` alone — the pattern text takes no part in the
lookup.) -/
def PatternCache.get (compile : String → Option Rx) (pc : PatternCache)
    (key patternStr : String) : PatternCache × Except InvalidPattern Rx :=
  match pc.patterns.lookup key with
  | some pattern => (pc, .ok pattern)
  | none =>
    match compile patternStr with
    | none => (pc, .error .invalid)
    | some pattern => (⟨(key, pattern) :: pc.patterns⟩, .ok pattern)

/-- `patterns.GetEmailPattern cfg`: when a non-nil config carries a
non-empty `CustomEmailPattern`, consult the cache under the key
`"email"`; on a compile error fall back to the precompiled default.
Returns the possibly-grown cache together with the matcher (the Go
function reads and writes the package-global cache). -/
def GetEmailPattern (compile : String → Option Rx) (pc : PatternCache)
    (cfg : Option Config) : PatternCache × Rx :=
  match cfg with
  | some c =>
    if c.CustomEmailPattern ≠ "" then
      match PatternCache.get compile pc "email" c.CustomEmailPattern with
      | (pc2, .ok pattern) => (pc2, pattern)
      | (pc2, .error _) => (pc2, defaultEmailPattern)
    else (pc, defaultEmailPattern)
  | none => (pc, defaultEmailPattern)

/-! ## Loading configuration (`internal/config/config.go`, `Load`)

`Load` talks to the file system and to `encoding/json`; both are
external collaborators, modelled as a record of outcomes: whether the
config directory is available, whether `config.json` exists, the
result of reading it, the JSON decoder, and whether `Save` would
succeed. -/

/-- The outcomes of the external calls made by `config.Load`. -/
structure FileEnv where
  /-- `getConfigDir` succeeds -/
  dirOk : Bool
  /-- `os.Stat(configPath)`: the config file exists -/
  fileExists : Bool
  /-- `os.ReadFile` succeeds -/
  readOk : Bool
  /-- the bytes read from the config file (when readable) -/
  fileData : String
  /-- `json.Unmarshal`: `none` = the data cannot be parsed -/
  parse : String → Option Config
  /-- `config.Save` (the durable write of the default) succeeds -/
  saveOk : Bool

/-- The error cases of `config.Load`. -/
inductive LoadErr where
  /-- `getConfigDir` failed -/
  | dirFailed
  /-- "failed to create default config" (the `Save` inside `Load` failed) -/
  | createDefaultFailed
  /-- "failed to read config file" -/
  | readFailed
  /-- "failed to parse config file" -/
  | parseFailed
  deriving DecidableEq, Repr

/-- `config.Load`, branch for branch: a `(Config, error)` pair, where
`none` in the second component is Go's `nil` error. -/
def Load (env : FileEnv) : Config × Option LoadErr :=
  if !env.dirOk then (DefaultConfig, some .dirFailed)
  else if !env.fileExists then
    -- create and persist the default config
    if !env.saveOk then (DefaultConfig, some .createDefaultFailed)
    else (DefaultConfig, none)
  else if !env.readOk then (DefaultConfig, some .readFailed)
  else
    match env.parse env.fileData with
    | none => (DefaultConfig, some .parseFailed)
    | some cfg => (cfg, none)

/-! ## The configuration manager (`internal/config/manager.go`)

Registered observers are Go closures; they are modelled as opaque
values of an arbitrary type `Obs`, and "invoking observer `f` with
configuration `c`" is recorded as the pair `(f, c)` in the list of
notifications an operation performs, in invocation order.  The durable
write `db.SaveConfig` (external persistence) is a boolean outcome. -/

/-- `config.Manager`: the in-memory snapshot and the registered
`onChange` callbacks, in registration order. -/
structure Manager (Obs : Type) where
  config : Config
  onChange : List Obs

/-- `Manager.Get`: the current snapshot. -/
def Manager.get {Obs : Type} (m : Manager Obs) : Config := m.config

/-- `config.NewManager`: load, propagating any load error. -/
def NewManager {Obs : Type} (env : FileEnv) : Except LoadErr (Manager Obs) :=
  match Load env with
  | (_, some e) => .error e
  | (cfg, none) => .ok ⟨cfg, []⟩

/-- `Manager.Update cfg` with durable-write outcome `saveOk`:
save to the database first, returning its error; on success swap the
snapshot and invoke every registered callback with `cfg`.  Returns the
new manager state, the returned error, and the notifications
performed, in order. -/
def Manager.update {Obs : Type} (saveOk : Bool) (m : Manager Obs) (cfg : Config) :
    Manager Obs × Option Unit × List (Obs × Config) :=
  if !saveOk then (m, some (), [])
  else ({ m with config := cfg }, none, m.onChange.map (fun f => (f, cfg)))

/-! ## Auxiliary definitions used by the verification -/

/-- Glue a scan result back together: each recorded match preceded by
its literal prefix, followed by the literal tail.  A faithful scan
reassembles to the input (`scanGo_reassemble`). -/
def reassemble (res : List (List Char × List Char) × List Char) : List Char :=
  res.1.foldr (fun seg acc => seg.1 ++ seg.2 ++ acc) res.2

/-- A configuration with only email detection enabled (the shape used
by the repository's own unit tests). -/
def cfgOnlyEmail : Config where
  DetectEmails := true
  EmailReplacement := "[EMAIL]"

/-- A configuration with all five built-in detection toggles enabled
and a distinct placeholder per category (the shape used by
`TestSensitiveData_MultipleTypes`). -/
def cfgFiveOn : Config where
  DetectEmails := true
  DetectPhones := true
  DetectCreditCards := true
  DetectSSNs := true
  DetectIPV4 := true
  EmailReplacement := "[EMAIL]"
  PhoneReplacement := "[PHONE]"
  CreditCardReplacement := "[CARD]"
  SSNReplacement := "[SSN]"
  IPV4Replacement := "[IP]"

/-- An input holding exactly one value of each of the five built-in
categories (email, US phone, 16-digit card, SSN, IPv4). -/
def fiveValueInput : String :=
  "user@example.com 123-456-7890 1234-5678-9012-3456 123-45-6789 192.168.1.1"

/-- An exact-match rule replacing `ab` by `ba`; its replacement `ba`
does not contain the rule's text. -/
def ruleSwap : StringMatchPattern := ⟨"r", "ab", true, "ba"⟩

/-- A configuration with no categories enabled and the single enabled
exact-match rule `ruleSwap`. -/
def cfgSwap : Config where
  StringMatchPatterns := [ruleSwap]

/-- A concrete stand-in for `regexp.Compile` mapping `"a"` and `"b"`
to distinct compiled matchers (both pattern texts compile). -/
def compileAB : String → Option Rx :=
  fun s => if s = "a" then some (chr 'a')
    else if s = "b" then some (chr 'b') else none

/-- A concrete stand-in for `regexp.Compile` under which only the
pattern text `"x"` compiles (in particular `"("` does not, as in Go). -/
def compileX : String → Option Rx :=
  fun s => if s = "x" then some (chr 'x') else none

/-- A configuration whose email override pattern is the non-compilable
string `"("`. -/
def cfgBadOverride : Config where
  CustomEmailPattern := "("

/-- File-system outcomes: no config file exists, and persisting the
default succeeds. -/
def envAbsent : FileEnv where
  dirOk := true
  fileExists := false
  readOk := true
  fileData := ""
  parse := fun _ => none
  saveOk := true

/-- File-system outcomes: the config file exists and is readable, but
its contents cannot be parsed. -/
def envCorrupt : FileEnv where
  dirOk := true
  fileExists := true
  readOk := true
  fileData := "not json"
  parse := fun _ => none
  saveOk := true

/-! ## Lemmas about the scan loop -/

/-- One-step unfolding of the scan loop (the body of `scanGo` at
non-zero fuel, with its local abbreviations expanded). -/
theorem scanGo_succ (r : Rx) (fuel : Nat) (p : Option Char) (j : Bool) (s : List Char) :
    scanGo r (fuel + 1) p j s =
      match matchHere r p s with
      | none =>
        match s with
        | [] => ([], [])
        | c :: s2 => consPre c (scanGo r fuel (some c) false s2)
      | some rest =>
        if s.length - rest.length = 0 then
          match s with
          | [] => if j then ([], []) else ([([], [])], [])
          | c :: s2 =>
            if j then consPre c (scanGo r fuel (some c) false s2)
            else (([], []) :: (consPre c (scanGo r fuel (some c) false s2)).1,
              (consPre c (scanGo r fuel (some c) false s2)).2)
        else
          (([], s.take (s.length - rest.length)) ::
              (scanGo r fuel
                (match (s.take (s.length - rest.length)).getLast? with
                  | some c => some c
                  | none => p) true (s.drop (s.length - rest.length))).1,
            (scanGo r fuel
                (match (s.take (s.length - rest.length)).getLast? with
                  | some c => some c
                  | none => p) true (s.drop (s.length - rest.length))).2) := rfl

/-- Prepending a literal character commutes with reassembly. -/
theorem reassemble_consPre (c : Char)
    (res : List (List Char × List Char) × List Char) :
    reassemble (consPre c res) = c :: reassemble res := by
  obtain ⟨segs, tail⟩ := res
  cases segs with
  | nil => rfl
  | cons seg segs2 =>
    obtain ⟨pre, m⟩ := seg
    simp [consPre, reassemble]

/-- Reassembly of a scan result with one segment exposed. -/
theorem reassemble_cons (pre m : List Char)
    (res : List (List Char × List Char) × List Char) :
    reassemble ((pre, m) :: res.1, res.2) = pre ++ m ++ reassemble res := by
  obtain ⟨segs, tail⟩ := res
  simp [reassemble]

/-- The scan decomposes its input: gluing the literal prefixes, the
matches and the tail back together yields the input text. -/
theorem scanGo_reassemble (r : Rx) :
    ∀ (fuel : Nat) (p : Option Char) (j : Bool) (s : List Char),
      s.length < fuel → reassemble (scanGo r fuel p j s) = s := by
  intro fuel
  induction fuel with
  | zero => exact fun p j s h => absurd h (Nat.not_lt_zero _)
  | succ fuel ih =>
    intro p j s h
    rw [scanGo_succ]
    cases hm : matchHere r p s with
    | none =>
      cases s with
      | nil => rfl
      | cons c s2 =>
        have h2 : s2.length < fuel := by simpa using Nat.lt_of_succ_lt_succ h
        rw [reassemble_consPre, ih _ _ _ h2]
    | some rest =>
      dsimp only
      by_cases hn : s.length - rest.length = 0
      · rw [if_pos hn]
        cases s with
        | nil => cases j <;> rfl
        | cons c s2 =>
          dsimp only
          have h2 : s2.length < fuel := by simpa using Nat.lt_of_succ_lt_succ h
          cases j with
          | true =>
            rw [if_pos rfl, reassemble_consPre, ih _ _ _ h2]
          | false =>
            rw [if_neg Bool.false_ne_true, reassemble_cons, reassemble_consPre,
              ih _ _ _ h2]
            simp
      · rw [if_neg hn]
        have hlt : (s.drop (s.length - rest.length)).length < fuel := by
          have hs : 0 < s.length := by
            rcases s with _ | ⟨c, s2⟩
            · simp at hn
            · simp
          simp only [List.length_drop]
          omega
        rw [reassemble_cons, ih _ _ _ hlt]
        simp

/-- `ReplaceAllString` is the identity whenever every match the scan
finds is already equal to the replacement text (in particular whenever
there is no match at all). -/
theorem replaceAll_fix (r : Rx) (s repl : List Char)
    (h : ∀ m ∈ findAll r s, m = repl) :
    replaceAll r s repl = s := by
  have key : ∀ (segs : List (List Char × List Char)) (tail : List Char),
      (∀ seg ∈ segs, seg.2 = repl) →
      segs.foldr (fun seg acc => seg.1 ++ repl ++ acc) tail
        = segs.foldr (fun seg acc => seg.1 ++ seg.2 ++ acc) tail := by
    intro segs tail hsegs
    induction segs with
    | nil => rfl
    | cons seg segs2 ihs =>
      simp only [List.foldr_cons]
      rw [hsegs seg (by simp), ihs (fun x hx => hsegs x (by simp [hx]))]
  have hm : ∀ seg ∈ (scanText r s).1, seg.2 = repl := by
    intro seg hseg
    exact h seg.2 (List.mem_map_of_mem _ hseg)
  calc replaceAll r s repl
      = reassemble (scanText r s) := by
        unfold replaceAll reassemble
        exact key _ _ hm
    _ = s := scanGo_reassemble r _ none false s (Nat.lt_succ_self _)

/-! ## Lemmas about plain string replacement -/

/-- A successful `HasPrefix` test decomposes the string. -/
theorem startsWithStr_eq : ∀ (pat s : List Char),
    startsWithStr s pat = true → pat ++ s.drop pat.length = s := by
  intro pat
  induction pat with
  | nil => intro s _; simp
  | cons d pat2 ih =>
    intro s hs
    cases s with
    | nil => simp [startsWithStr] at hs
    | cons c s2 =>
      simp only [startsWithStr, Bool.and_eq_true, beq_iff_eq] at hs
      simpa [hs.1] using ih s2 hs.2

/-- Replacing a non-empty string by itself changes nothing (stated for
any sufficient fuel). -/
theorem replaceNEGo_self (o : Char) (old2 : List Char) :
    ∀ (n : Nat) (s : List Char), replaceNEGo o old2 (o :: old2) n s = s := by
  intro n
  induction n with
  | zero => exact fun s => rfl
  | succ n ih =>
    intro s
    cases s with
    | nil => rfl
    | cons c s2 =>
      rw [replaceNEGo]
      by_cases hp : startsWithStr (c :: s2) (o :: old2) = true
      · have hdec := startsWithStr_eq (o :: old2) (c :: s2) hp
        have hdrop : (c :: s2).drop (o :: old2).length = s2.drop old2.length := by
          simp [List.drop_succ_cons]
        rw [if_pos hp, ih _]
        rw [hdrop] at hdec
        exact hdec
      · rw [if_neg hp, ih s2]

/-- Replacing a non-empty string by itself changes nothing. -/
theorem replaceNE_self (o : Char) (old2 : List Char) (s : List Char) :
    replaceNE o old2 (o :: old2) s = s :=
  replaceNEGo_self o old2 s.length s

/-- `strings.ReplaceAll s old old = s`. -/
theorem replaceAllString_self (s old : List Char) :
    replaceAllString s old old = s := by
  cases old with
  | nil =>
    have : ∀ (t : List Char),
        t.foldr (fun c acc => c :: (([] : List Char) ++ acc)) [] = t := by
      intro t
      induction t with
      | nil => rfl
      | cons c t2 ih => simp [ih]
    simp [replaceAllString, this s]
  | cons o old2 => exact replaceNE_self o old2 s

/-! ## Lemmas about the redaction passes -/

/-- A regex pass that records nothing found no match, and then leaves
the text unchanged. -/
theorem findAndReplaceRegex_reps_nil (pattern : Rx) (repl ty : String) (st : FilterSt)
    (h : (findAndReplaceRegex pattern repl ty st).reps = []) :
    st.reps = [] ∧ (findAndReplaceRegex pattern repl ty st).text = st.text := by
  unfold findAndReplaceRegex at h ⊢
  dsimp only at h ⊢
  obtain ⟨h1, h2⟩ := List.append_eq_nil.mp h
  refine ⟨h1, ?_⟩
  have hfa : findAll pattern st.text = [] := List.map_eq_nil_iff.mp h2
  exact replaceAll_fix pattern st.text repl.data (by simp [hfa])

/-- A conditional regex pass that records nothing leaves the text
unchanged. -/
theorem condRegex_reps_nil (b : Bool) (pattern : Rx) (repl ty : String) (st : FilterSt)
    (h : (if b then findAndReplaceRegex pattern repl ty st else st).reps = []) :
    st.reps = [] ∧
      (if b then findAndReplaceRegex pattern repl ty st else st).text = st.text := by
  cases b with
  | false => exact ⟨h, rfl⟩
  | true => exact findAndReplaceRegex_reps_nil pattern repl ty st h

/-- An exact-match step that records nothing leaves the text
unchanged. -/
theorem findAndReplaceString_reps_nil (pat repl ty : String) (st : FilterSt)
    (h : (findAndReplaceString pat repl ty st).reps = []) :
    st.reps = [] ∧ (findAndReplaceString pat repl ty st).text = st.text := by
  unfold findAndReplaceString at h ⊢
  by_cases hc : containsStr st.text pat.data = true
  · rw [if_pos hc] at h
    simp at h
  · rw [if_neg hc] at h ⊢
    exact ⟨h, rfl⟩

/-- A conditional exact-match step that records nothing leaves the text
unchanged. -/
theorem condString_reps_nil (q : StringMatchPattern) (st : FilterSt)
    (h : (if q.Enabled then
        findAndReplaceString q.Pattern q.Replacement q.Name st else st).reps = []) :
    st.reps = [] ∧ (if q.Enabled then
      findAndReplaceString q.Pattern q.Replacement q.Name st else st).text = st.text := by
  cases hb : q.Enabled with
  | false =>
    rw [hb] at h
    exact ⟨h, rfl⟩
  | true =>
    rw [hb] at h
    exact findAndReplaceString_reps_nil q.Pattern q.Replacement q.Name st h

/-- An exact-match pass that records nothing leaves the text
unchanged. -/
theorem stringMatchPass_reps_nil (rules : List StringMatchPattern) :
    ∀ (st : FilterSt), (stringMatchPass rules st).reps = [] →
      st.reps = [] ∧ (stringMatchPass rules st).text = st.text := by
  induction rules with
  | nil => exact fun st h => ⟨h, rfl⟩
  | cons q rest ih =>
    intro st h
    rw [show stringMatchPass (q :: rest) st
      = stringMatchPass rest
          (if q.Enabled then
            findAndReplaceString q.Pattern q.Replacement q.Name st else st) from rfl] at h ⊢
    obtain ⟨ih1, ih2⟩ := ih _ h
    obtain ⟨g1, g2⟩ := condString_reps_nil q st ih1
    exact ⟨g1, by rw [ih2, g2]⟩

/-- If the summary of a redaction call is empty, nothing changed. -/
theorem sensitiveData_summary_nil (text : String) (cfg : Config)
    (hnil : (SensitiveData text cfg).2.2.Replacements = []) :
    (SensitiveData text cfg).2.1 = false := by
  unfold SensitiveData at hnil ⊢
  dsimp only at hnil ⊢
  have c5 := stringMatchPass_reps_nil cfg.StringMatchPatterns _ hnil
  have c4 := condRegex_reps_nil cfg.DetectSSNs SSNPattern cfg.SSNReplacement
    SensitiveTypeSSN _ c5.1
  have c3 := condRegex_reps_nil cfg.DetectCreditCards CreditCardPattern
    cfg.CreditCardReplacement SensitiveTypeCreditCard _ c4.1
  have c2 := condRegex_reps_nil cfg.DetectPhones PhonePattern cfg.PhoneReplacement
    SensitiveTypePhone _ c3.1
  have c1 := condRegex_reps_nil cfg.DetectEmails EmailPattern cfg.EmailReplacement
    SensitiveTypeEmail ⟨text.data, []⟩ c2.1
  rw [c5.2, c4.2, c3.2, c2.2, c1.2]
  simp

/-- A conditional regex pass leaves a text `T` unchanged when every
match it finds in `T` is the configured replacement. -/
theorem condRegex_text_fix (b : Bool) (pattern : Rx) (repl ty : String)
    (st : FilterSt) (T : List Char) (hst : st.text = T)
    (h : b = true → ∀ m ∈ findAll pattern T, m = repl.data) :
    (if b then findAndReplaceRegex pattern repl ty st else st).text = T := by
  cases b with
  | false => exact hst
  | true =>
    show (findAndReplaceRegex pattern repl ty st).text = T
    unfold findAndReplaceRegex
    dsimp only
    rw [hst]
    exact replaceAll_fix pattern T repl.data (h rfl)

/-- An exact-match step leaves a text unchanged when its rule text, if
present, equals its replacement. -/
theorem findAndReplaceString_text_fix (pat repl ty : String) (st : FilterSt)
    (h : containsStr st.text pat.data = true → pat.data = repl.data) :
    (findAndReplaceString pat repl ty st).text = st.text := by
  unfold findAndReplaceString
  by_cases hc : containsStr st.text pat.data = true
  · rw [if_pos hc]
    dsimp only
    rw [← h hc]
    exact replaceAllString_self st.text pat.data
  · rw [if_neg hc]

/-- The exact-match pass leaves a text `T` unchanged when every enabled
rule whose text occurs in `T` replaces it by itself. -/
theorem stringMatchPass_text_fix (rules : List StringMatchPattern) :
    ∀ (st : FilterSt) (T : List Char), st.text = T →
      (∀ p ∈ rules, p.Enabled = true → containsStr T p.Pattern.data = true →
        p.Pattern.data = p.Replacement.data) →
      (stringMatchPass rules st).text = T := by
  induction rules with
  | nil => exact fun st T hst _ => hst
  | cons q rest ih =>
    intro st T hst h
    rw [show stringMatchPass (q :: rest) st
      = stringMatchPass rest
          (if q.Enabled then
            findAndReplaceString q.Pattern q.Replacement q.Name st else st) from rfl]
    have hq : (if q.Enabled then
        findAndReplaceString q.Pattern q.Replacement q.Name st else st).text = T := by
      cases hb : q.Enabled with
      | false => exact hst
      | true =>
        show (findAndReplaceString q.Pattern q.Replacement q.Name st).text = T
        rw [findAndReplaceString_text_fix q.Pattern q.Replacement q.Name st
          (by rw [hst]; exact h q (by simp) hb)]
        exact hst
    exact ih _ T hq (fun p hp => h p (List.mem_cons_of_mem _ hp))

/-- A redaction call reports no change when every enabled category
matches only its own replacement in the input and every enabled rule
whose text occurs replaces it by itself. -/
theorem sensitiveData_fixed (t : String) (cfg : Config)
    (hE : cfg.DetectEmails = true →
      ∀ m ∈ findAll EmailPattern t.data, m = cfg.EmailReplacement.data)
    (hP : cfg.DetectPhones = true →
      ∀ m ∈ findAll PhonePattern t.data, m = cfg.PhoneReplacement.data)
    (hC : cfg.DetectCreditCards = true →
      ∀ m ∈ findAll CreditCardPattern t.data, m = cfg.CreditCardReplacement.data)
    (hS : cfg.DetectSSNs = true →
      ∀ m ∈ findAll SSNPattern t.data, m = cfg.SSNReplacement.data)
    (hR : ∀ p ∈ cfg.StringMatchPatterns, p.Enabled = true →
      containsStr t.data p.Pattern.data = true → p.Pattern.data = p.Replacement.data) :
    (SensitiveData t cfg).2.1 = false := by
  unfold SensitiveData
  dsimp only
  have h1 := condRegex_text_fix cfg.DetectEmails EmailPattern cfg.EmailReplacement
    SensitiveTypeEmail ⟨t.data, []⟩ t.data rfl hE
  have h2 := condRegex_text_fix cfg.DetectPhones PhonePattern cfg.PhoneReplacement
    SensitiveTypePhone _ t.data h1 hP
  have h3 := condRegex_text_fix cfg.DetectCreditCards CreditCardPattern
    cfg.CreditCardReplacement SensitiveTypeCreditCard _ t.data h2 hC
  have h4 := condRegex_text_fix cfg.DetectSSNs SSNPattern cfg.SSNReplacement
    SensitiveTypeSSN _ t.data h3 hS
  have h5 := stringMatchPass_text_fix cfg.StringMatchPatterns _ t.data h4 hR
  rw [h5]
  simp

/-- Removing the disabled rules from the exact-match pass changes
nothing. -/
theorem stringMatchPass_filter (rules : List StringMatchPattern) :
    ∀ (st : FilterSt),
      stringMatchPass (rules.filter (fun p => p.Enabled)) st
        = stringMatchPass rules st := by
  induction rules with
  | nil => exact fun _ => rfl
  | cons q rest ih =>
    intro st
    by_cases hb : q.Enabled = true
    · rw [List.filter_cons_of_pos (by simpa using hb)]
      rw [show stringMatchPass (q :: rest.filter fun p => p.Enabled) st
          = stringMatchPass (rest.filter fun p => p.Enabled)
              (if q.Enabled then
                findAndReplaceString q.Pattern q.Replacement q.Name st else st) from rfl,
        show stringMatchPass (q :: rest) st
          = stringMatchPass rest
              (if q.Enabled then
                findAndReplaceString q.Pattern q.Replacement q.Name st else st) from rfl]
      exact ih _
    · rw [List.filter_cons_of_neg (by simpa using hb)]
      rw [show stringMatchPass (q :: rest) st
          = stringMatchPass rest
              (if q.Enabled then
                findAndReplaceString q.Pattern q.Replacement q.Name st else st) from rfl]
      have hq : (if q.Enabled then
          findAndReplaceString q.Pattern q.Replacement q.Name st else st) = st := by
        simp [hb]
      rw [hq]
      exact ih st

/-! ## The claims -/

/-- C1: the spec requires that an input holding one email, one US phone
number, one 16-digit card number, one SSN and one IPv4 address, with
all five built-in categories enabled, comes back fully redacted with a
five-record summary.  The redaction engine in the source has no IPv4
pass (contradicting the repository's own tests, which exercise
`DetectIPV4`): on such an input the IPv4 address survives verbatim and
the summary has exactly four records, one for each of the other
categories. -/
theorem sensitiveData_no_ipv4_pass :
    SensitiveData fiveValueInput cfgFiveOn
      = ("[EMAIL] [PHONE] [CARD] [SSN] 192.168.1.1", true,
        ⟨[⟨SensitiveTypeEmail, "user@example.com", "[EMAIL]"⟩,
          ⟨SensitiveTypePhone, "123-456-7890", "[PHONE]"⟩,
          ⟨SensitiveTypeCreditCard, "1234-5678-9012-3456", "[CARD]"⟩,
          ⟨SensitiveTypeSSN, "123-45-6789", "[SSN]"⟩]⟩) ∧
    containsStr ((SensitiveData fiveValueInput cfgFiveOn).1).data
      "192.168.1.1".data = true := by
  constructor
  · decide
  · decide

/-- C2: a successful update makes `Get` return the new configuration
and notifies every registered observer exactly once with it, in
registration order, before returning; a failed durable write returns
the error, leaves `Get` at the pre-update snapshot, and notifies no
observer. -/
theorem manager_update_contract {Obs : Type} (m : Manager Obs) (cfg : Config) :
    ((Manager.update true m cfg).1.get = cfg ∧
      (Manager.update true m cfg).2.1 = none ∧
      (Manager.update true m cfg).2.2 = m.onChange.map (fun f => (f, cfg))) ∧
    ((Manager.update false m cfg).2.1 = some () ∧
      (Manager.update false m cfg).1.get = m.get ∧
      (Manager.update false m cfg).2.2 = []) :=
  ⟨⟨rfl, rfl, rfl⟩, ⟨rfl, rfl, rfl⟩⟩

/-- C3 (counterexample): the claim says distinct pattern text for the
same category is a cache miss.  In the code the map key is the category
identifier alone: after serving `("email", "a")`, the lookup
`("email", "b")` is a HIT returning the matcher compiled from `"a"`,
although `"b"` compiles to a different matcher. -/
theorem patternCache_key_ignores_text_cex :
    PatternCache.get compileAB ⟨[]⟩ "email" "a"
      = (⟨[("email", chr 'a')]⟩, Except.ok (chr 'a')) ∧
    compileAB "b" = some (chr 'b') ∧
    PatternCache.get compileAB ⟨[("email", chr 'a')]⟩ "email" "b"
      = (⟨[("email", chr 'a')]⟩, Except.ok (chr 'a')) ∧
    chr 'a' ≠ chr 'b' := by
  refine ⟨rfl, rfl, rfl, by decide⟩

/-- C3 (amended): the cache key is the per-category identifier alone;
once a lookup for a category has been served, any subsequent lookup for
the same category is a cache hit returning the originally cached
matcher, whatever pattern text it carries — the cache state does not
change either. -/
theorem patternCache_key_only (compile : String → Option Rx)
    (pc pc1 : PatternCache) (key p1 p2 : String) (r1 : Rx)
    (h : PatternCache.get compile pc key p1 = (pc1, Except.ok r1)) :
    PatternCache.get compile pc1 key p2 = (pc1, Except.ok r1) := by
  unfold PatternCache.get at h ⊢
  cases hl : pc.patterns.lookup key with
  | some r =>
    rw [hl] at h
    simp only [Prod.mk.injEq, Except.ok.injEq] at h
    obtain ⟨h1, h2⟩ := h
    subst h1
    subst h2
    rw [hl]
  | none =>
    rw [hl] at h
    cases hc : compile p1 with
    | none =>
      rw [hc] at h
      simp at h
    | some r =>
      rw [hc] at h
      simp only [Prod.mk.injEq, Except.ok.injEq] at h
      obtain ⟨h1, h2⟩ := h
      have hlk : pc1.patterns.lookup key = some r1 := by
        rw [← h1]
        simp [List.lookup, h2]
      rw [hlk]

/-- Witness for the amended C3 at concrete inputs. -/
theorem patternCache_key_only_witness :
    PatternCache.get compileAB ⟨[("email", chr 'a')]⟩ "email" "b"
      = (⟨[("email", chr 'a')]⟩, Except.ok (chr 'a')) :=
  patternCache_key_only compileAB ⟨[]⟩ ⟨[("email", chr 'a')]⟩ "email" "a" "b"
    (chr 'a') rfl

/-- C4 (counterexample): the claim says a non-compilable override makes
redaction use the built-in default matcher.  With a warm cache this
fails: after the category `"email"` has been cached for the earlier
override `"x"`, resolving a config whose override is the non-compilable
`"("` returns the stale cached matcher for `"x"` — not the default that
the empty override yields. -/
theorem getEmailPattern_warm_cache_cex :
    PatternCache.get compileX ⟨[]⟩ "email" "x"
      = (⟨[("email", chr 'x')]⟩, Except.ok (chr 'x')) ∧
    compileX cfgBadOverride.CustomEmailPattern = none ∧
    GetEmailPattern compileX ⟨[("email", chr 'x')]⟩ (some cfgBadOverride)
      = (⟨[("email", chr 'x')]⟩, chr 'x') ∧
    GetEmailPattern compileX ⟨[("email", chr 'x')]⟩
        (some { cfgBadOverride with CustomEmailPattern := "" })
      = (⟨[("email", chr 'x')]⟩, defaultEmailPattern) ∧
    chr 'x' ≠ defaultEmailPattern := by
  refine ⟨rfl, rfl, rfl, rfl, by decide⟩

/-- C4 (amended): when the cache holds no entry for the category, a
non-compilable override resolves to the built-in default matcher,
exactly as the empty override does, leaving the cache unchanged and
raising no error (the resolver's type has no error outcome). -/
theorem getEmailPattern_fallback_fresh (compile : String → Option Rx)
    (pc : PatternCache) (cfg : Config)
    (hpc : pc.patterns.lookup "email" = none)
    (hcomp : compile cfg.CustomEmailPattern = none) :
    GetEmailPattern compile pc (some cfg) = (pc, defaultEmailPattern) ∧
    GetEmailPattern compile pc (some { cfg with CustomEmailPattern := "" })
      = (pc, defaultEmailPattern) := by
  constructor
  · unfold GetEmailPattern
    dsimp only
    by_cases hne : cfg.CustomEmailPattern ≠ ""
    · rw [if_pos hne]
      have hget : PatternCache.get compile pc "email" cfg.CustomEmailPattern
          = (pc, Except.error InvalidPattern.invalid) := by
        unfold PatternCache.get
        rw [hpc, hcomp]
      rw [hget]
    · rw [if_neg hne]
  · unfold GetEmailPattern
    dsimp only
    rw [if_neg (by simp)]

/-- Witness for the amended C4 at concrete inputs. -/
theorem getEmailPattern_fallback_fresh_witness :
    GetEmailPattern compileX ⟨[]⟩ (some cfgBadOverride) = (⟨[]⟩, defaultEmailPattern) ∧
    GetEmailPattern compileX ⟨[]⟩
        (some { cfgBadOverride with CustomEmailPattern := "" })
      = (⟨[]⟩, defaultEmailPattern) :=
  getEmailPattern_fallback_fresh compileX ⟨[]⟩ cfgBadOverride rfl rfl

/-- C5 (counterexample): the claim says an unparseable persisted
configuration is replaced by the default without propagating the
failure, so that constructing the manager succeeds.  In the code `Load`
returns the default TOGETHER with a non-nil error, and `NewManager`
propagates that error: construction fails. -/
theorem newManager_corrupt_cex :
    @NewManager Unit envCorrupt = Except.error LoadErr.parseFailed := rfl

/-- C5 (amended): when the persisted configuration is absent and the
default can be persisted, `Load` returns the default with no error and
manager construction succeeds with the default snapshot; when the
persisted configuration cannot be parsed, `Load` substitutes the
default but pairs it with a parse error, which `NewManager` propagates
— construction fails. -/
theorem newManager_load_outcomes {Obs : Type} (env : FileEnv)
    (hdir : env.dirOk = true) :
    (env.fileExists = false → env.saveOk = true →
      Load env = (DefaultConfig, none) ∧
      @NewManager Obs env = Except.ok ⟨DefaultConfig, []⟩) ∧
    (env.fileExists = true → env.readOk = true → env.parse env.fileData = none →
      Load env = (DefaultConfig, some LoadErr.parseFailed) ∧
      @NewManager Obs env = Except.error LoadErr.parseFailed) := by
  constructor
  · intro hex hsave
    have hload : Load env = (DefaultConfig, none) := by
      unfold Load
      simp [hdir, hex, hsave]
    exact ⟨hload, by unfold NewManager; rw [hload]⟩
  · intro hex hread hparse
    have hload : Load env = (DefaultConfig, some LoadErr.parseFailed) := by
      unfold Load
      simp [hdir, hex, hread, hparse]
    exact ⟨hload, by unfold NewManager; rw [hload]⟩

/-- Witness for the amended C5 at concrete environments. -/
theorem newManager_load_outcomes_witness :
    @NewManager Unit envAbsent = Except.ok ⟨DefaultConfig, []⟩ ∧
    @NewManager Unit envCorrupt = Except.error LoadErr.parseFailed :=
  ⟨((newManager_load_outcomes envAbsent rfl).1 rfl rfl).2,
    ((newManager_load_outcomes envCorrupt rfl).2 rfl rfl rfl).2⟩

/-- C6: redaction is deterministic — two invocations with identical
input text and identical configuration produce byte-identical filtered
text, the same changed flag, and identically ordered summaries.  (The
embedding is a pure function of `(text, cfg)`; the Go function reads no
other state: the only globals it touches are the immutable precompiled
default patterns.) -/
theorem sensitiveData_deterministic (t1 t2 : String) (c1 c2 : Config)
    (ht : t1 = t2) (hc : c1 = c2) :
    (SensitiveData t1 c1).1 = (SensitiveData t2 c2).1 ∧
    (SensitiveData t1 c1).2.1 = (SensitiveData t2 c2).2.1 ∧
    (SensitiveData t1 c1).2.2.Replacements = (SensitiveData t2 c2).2.2.Replacements := by
  subst ht
  subst hc
  exact ⟨rfl, rfl, rfl⟩

/-- Witness for C6 at a concrete invocation pair. -/
theorem sensitiveData_deterministic_witness :
    (SensitiveData "Contact me at user@example.com" cfgOnlyEmail).1
        = (SensitiveData "Contact me at user@example.com" cfgOnlyEmail).1 ∧
    (SensitiveData "Contact me at user@example.com" cfgOnlyEmail).2.1
        = (SensitiveData "Contact me at user@example.com" cfgOnlyEmail).2.1 ∧
    (SensitiveData "Contact me at user@example.com" cfgOnlyEmail).2.2.Replacements
        = (SensitiveData "Contact me at user@example.com" cfgOnlyEmail).2.2.Replacements :=
  sensitiveData_deterministic _ _ _ _ rfl rfl

/-- C7 (counterexample): the claim says a second run on the first
run's output reports no change whenever no configured replacement
itself matches an enabled pattern or rule.  The enabled exact rule
`ab → ba` satisfies that hypothesis (`ba` does not contain `ab`), yet
on input `aab` the first run yields `aba` and the second run changes
it again: a replacement can combine with adjacent retained text into a
fresh match. -/
theorem sensitiveData_rerun_changed_cex :
    containsStr ruleSwap.Replacement.data ruleSwap.Pattern.data = false ∧
    (SensitiveData "aab" cfgSwap).1 = "aba" ∧
    (SensitiveData ((SensitiveData "aab" cfgSwap).1) cfgSwap).2.1 = true := by
  refine ⟨rfl, by decide, by decide⟩

/-- C7 (amended): a second run on the first run's output reports
`changed = false` provided every match an enabled category finds in
that output equals the category's configured replacement (in
particular when it finds none), and every enabled exact rule whose
text occurs in that output has replacement equal to its text. -/
theorem sensitiveData_rerun_fixed (text : String) (cfg : Config)
    (hE : cfg.DetectEmails = true →
      ∀ m ∈ findAll EmailPattern ((SensitiveData text cfg).1).data,
        m = cfg.EmailReplacement.data)
    (hP : cfg.DetectPhones = true →
      ∀ m ∈ findAll PhonePattern ((SensitiveData text cfg).1).data,
        m = cfg.PhoneReplacement.data)
    (hC : cfg.DetectCreditCards = true →
      ∀ m ∈ findAll CreditCardPattern ((SensitiveData text cfg).1).data,
        m = cfg.CreditCardReplacement.data)
    (hS : cfg.DetectSSNs = true →
      ∀ m ∈ findAll SSNPattern ((SensitiveData text cfg).1).data,
        m = cfg.SSNReplacement.data)
    (hR : ∀ p ∈ cfg.StringMatchPatterns, p.Enabled = true →
      containsStr ((SensitiveData text cfg).1).data p.Pattern.data = true →
      p.Pattern.data = p.Replacement.data) :
    (SensitiveData ((SensitiveData text cfg).1) cfg).2.1 = false :=
  sensitiveData_fixed ((SensitiveData text cfg).1) cfg hE hP hC hS hR

/-- Witness for the amended C7 at a concrete input. -/
theorem sensitiveData_rerun_fixed_witness :
    (SensitiveData ((SensitiveData "Contact me at user@example.com" cfgOnlyEmail).1)
      cfgOnlyEmail).2.1 = false :=
  sensitiveData_rerun_fixed "Contact me at user@example.com" cfgOnlyEmail
    (by decide) (by decide) (by decide) (by decide) (by decide)

/-- C8 (counterexample): the claim says every occurrence of a repeated
sensitive value is replaced, with one record per occurrence.  The
input `a@b.cca@b.cc` contains the email value `a@b.cc` twice (and that
value on its own is exactly what the email category matches), yet
redaction finds the single larger match `a@b.cca`, produces ONE record,
and the second occurrence is not replaced as such. -/
theorem sensitiveData_duplicate_overlap_cex :
    ("a@b.cca@b.cc" : String) = "a@b.cc" ++ "a@b.cc" ∧
    (findAll EmailPattern "a@b.cc".data).map String.mk = ["a@b.cc"] ∧
    SensitiveData "a@b.cca@b.cc" cfgOnlyEmail
      = ("[EMAIL]@b.cc", true,
        ⟨[⟨SensitiveTypeEmail, "a@b.cca", "[EMAIL]"⟩]⟩) := by
  refine ⟨rfl, by decide, by decide⟩

/-- C8 (amended): the summary carries exactly one record per match
found by the category's scan — equal matched values are never
de-duplicated — and in particular the documented duplicate-email
example yields two records and both occurrences replaced.  Occurrences
are counted as scan matches: overlapping or abutting occurrences can
merge into one larger match. -/
theorem sensitiveData_record_per_match :
    (∀ text : String,
      (SensitiveData text cfgOnlyEmail).2.2.Replacements
        = (findAll EmailPattern text.data).map
            (fun m => ⟨SensitiveTypeEmail, String.mk m, cfgOnlyEmail.EmailReplacement⟩)) ∧
    SensitiveData "Email user@test.com and also user@test.com again" cfgOnlyEmail
      = ("Email [EMAIL] and also [EMAIL] again", true,
        ⟨[⟨SensitiveTypeEmail, "user@test.com", "[EMAIL]"⟩,
          ⟨SensitiveTypeEmail, "user@test.com", "[EMAIL]"⟩]⟩) := by
  constructor
  · intro text
    simp [SensitiveData, cfgOnlyEmail, findAndReplaceRegex, stringMatchPass]
  · decide

/-- C9: an exact-match rule with `enabled = false` is never applied —
removing all disabled rules from the configuration leaves the filtered
text, the changed flag and the summary identical, so a disabled rule
never causes a replacement and never contributes a record. -/
theorem sensitiveData_disabled_rules_inert (text : String) (cfg : Config) :
    SensitiveData text
        { cfg with
          StringMatchPatterns := cfg.StringMatchPatterns.filter (fun p => p.Enabled) }
      = SensitiveData text cfg := by
  unfold SensitiveData
  dsimp only
  rw [stringMatchPass_filter]

/-- C10: whenever redaction reports `changed = true`, the summary is
non-empty — every change to the text is witnessed by at least one
record. -/
theorem sensitiveData_changed_has_record (text : String) (cfg : Config)
    (h : (SensitiveData text cfg).2.1 = true) :
    (SensitiveData text cfg).2.2.Replacements ≠ [] := by
  intro hnil
  have hf := sensitiveData_summary_nil text cfg hnil
  rw [hf] at h
  exact Bool.false_ne_true h

/-- Witness for C10 at a concrete changed redaction. -/
theorem sensitiveData_changed_has_record_witness :
    (SensitiveData "Contact me at user@example.com" cfgOnlyEmail).2.2.Replacements ≠ [] :=
  sensitiveData_changed_has_record "Contact me at user@example.com" cfgOnlyEmail
    (by decide)

end PromptSecurity